import Mathlib

/-!
Verification of the core behavioral contract of `coder_bot.py`, a small
streaming chat front-end: output sanitization, system-prompt construction,
history trimming, context assembly, the streaming fragment loop, and the
turn-log update discipline of the chat handler.

Python strings are modelled as Lean `String` (a wrapper around `List Char`,
matching Python's sequence-of-code-points view).  Turns (the dicts
`{"role": ..., "content": ...}`) are a two-field structure.  The Streamlit
session state and the stream of Ollama chunks are modelled explicitly; the
chat handler's effect on the turn log is a pure function of the initial log,
the prompt, and the stream outcome.
-/

/-- A conversation turn: Python dict `{"role": r, "content": c}`. -/
structure Turn where
  role : String
  content : String
deriving DecidableEq, Repr

/-- `BAD_TOKENS` from the source: the denylist of internal control tokens. -/
def BAD_TOKENS : List String :=
  ["<|fim_prefix|>",
   "<|fim_suffix|>",
   "<|fim_middle|>",
   "<|file_separator|>"]

/-- `MAX_HISTORY = 10`: max user+assistant turn pairs to send. -/
def MAX_HISTORY : Nat := 10

/-- `DEFAULT_MODEL = "codellama:7b"`. -/
def DEFAULT_MODEL : String := "codellama:7b"

/-- The language enumeration: the keys of `LANG_CONFIG` in the source. -/
def LANGUAGES : List String := ["Python", "JavaScript", "C++", "Java"]

/-- The skill-level enumeration offered by the `select_slider` widget. -/
def LEVELS : List String := ["Beginner", "Intermediate", "Advanced"]

/-- Left-to-right deletion of every (non-overlapping) occurrence of `pat`,
scanning as Python's `str.replace(pat, "")` does: on a match the scan resumes
after the matched occurrence.  `fuel` only bounds the recursion; it is set to
the length of the subject string, which always suffices because each step
consumes at least one character. -/
def stripCore : Nat → List Char → List Char → List Char
  | 0, _, s => s
  | _ + 1, _, [] => []
  | fuel + 1, pat, c :: rest =>
    if pat.isPrefixOf (c :: rest) && !pat.isEmpty then
      stripCore fuel pat (List.drop (pat.length - 1) rest)
    else
      c :: stripCore fuel pat rest

/-- Python `s.replace(pat, "")` (for the non-empty patterns in `BAD_TOKENS`). -/
def pyRemove (s pat : String) : String :=
  ⟨stripCore s.data.length pat.data s.data⟩

/-- `sanitize_output`: strips every `BAD_TOKENS` entry from `text`, one
`text.replace(token, "")` pass per token, in list order. -/
def sanitize_output (text : String) : String :=
  BAD_TOKENS.foldl pyRemove text

/-- Whether `pat` occurs as a contiguous substring of `s` (Python `pat in s`). -/
def hasInfix (pat : List Char) : List Char → Bool
  | [] => pat.isEmpty
  | c :: rest => pat.isPrefixOf (c :: rest) || hasInfix pat rest

/-- The whitespace class stripped by Python `str.strip()` (ASCII part). -/
def pySpace (c : Char) : Bool :=
  c = ' ' || c = '\t' || c = '\n' || c = '\r' || c = '\x0b' || c = '\x0c'

/-- Python `s.strip()`: drop leading and trailing whitespace. -/
def pyStrip (s : String) : String :=
  ⟨((s.data.dropWhile pySpace).reverse.dropWhile pySpace).reverse⟩

/-- The literal text of the system prompt before the interpolated language. -/
def bsp_head : String :=
  "You are PolyMentor AI, a coding tutor specializing in "

/-- The literal text between the interpolated language and the level. -/
def bsp_mid : String :=
  ".\nThe user's skill level is: "

/-- The literal text after the interpolated level (the adjacent string
literals of the source concatenate at parse time into this one block). -/
def bsp_tail : String :=
  ".\n\n"
  ++ "Rules:\n"
  ++ "- Answer ONLY the user's question. Do not go off-topic.\n"
  ++ "- Always produce correct, runnable code.\n"
  ++ "- Use markdown code blocks with the correct language tag.\n"
  ++ "- Add inline comments for beginners.\n"
  ++ "- Be concise and structured.\n"
  ++ "- Never output internal model tokens.\n\n"
  ++ "Response format:\n"
  ++ "📘 Concept — brief explanation\n"
  ++ "💡 Example — working code\n"
  ++ "🧠 Tip — one useful takeaway\n"

/-- `build_system_prompt`: the f-string of the source, as concatenation of
its literal segments around the two interpolations. -/
def build_system_prompt (language level : String) : String :=
  bsp_head ++ language ++ bsp_mid ++ level ++ bsp_tail

/-- The filter `m["role"] in ("user", "assistant")`. -/
def is_chat_role (m : Turn) : Bool :=
  m.role == "user" || m.role == "assistant"

/-- Python slice `l[-n:]`.  For `n > 0` it is the last `min n l.length`
elements; for `n = 0` the slice `l[-0:]` is `l[0:]`, the whole list. -/
def pySliceLast (l : List Turn) (n : Nat) : List Turn :=
  if n = 0 then l else l.drop (l.length - n)

/-- `get_trimmed_history`: keep only user/assistant turns, then take the
slice `chat_messages[-(max_pairs * 2):]`. -/
def get_trimmed_history (messages : List Turn) (max_pairs : Nat) : List Turn :=
  let chat_messages := messages.filter is_chat_role
  pySliceLast chat_messages (max_pairs * 2)

/-- The `context_messages` list built by the chat handler:
`[system] + prior_history + [current user message]`. -/
def context_messages (selected_lang level : String) (prior_history : List Turn)
    (prompt : String) : List Turn :=
  [Turn.mk "system" (build_system_prompt selected_lang level)]
  ++ prior_history
  ++ [Turn.mk "user" prompt]

/-- One chunk of the Ollama stream, by the shapes the stream loop handles:
`dict c` is a mapping, where `c = some s` means
`chunk["message"]["content"] = s` and `c = none` means the nested lookup
falls back to a default (extracted content `""`);
`obj c` is an object with a `message` attribute, where `c = none` models
`chunk.message.content` being `None` (turned into `""` by `or ""`);
`bad` is any chunk of neither shape, or one whose field access raises — the
`except` swallows the error, so its observable effect is exactly "no text". -/
inductive Chunk where
  | dict (content : Option String)
  | obj (content : Option String)
  | bad
deriving DecidableEq, Repr

/-- The defensively extracted text payload of a chunk (`content` after the
`try` block; `""` when nothing was extracted or extraction failed). -/
def extract_content : Chunk → String
  | Chunk.dict (some s) => s
  | Chunk.dict none => ""
  | Chunk.obj (some s) => s
  | Chunk.obj none => ""
  | Chunk.bad => ""

/-- One iteration of the stream loop acting on the response buffer
`full_response`: `if content: full_response += sanitize_output(content)`. -/
def stream_step (buf : String) (ch : Chunk) : String :=
  if extract_content ch = "" then buf
  else buf ++ sanitize_output (extract_content ch)

/-- The buffer after consuming a whole list of chunks. -/
def run_stream (buf : String) (chunks : List Chunk) : String :=
  chunks.foldl stream_step buf

/-- The successive buffers pushed to the display placeholder (one push per
chunk with non-empty extracted content; the transient `"▌"` cursor marker is
appended to each at display time and is not part of the buffer). -/
def stream_outputs (buf : String) : List Chunk → List String
  | [] => []
  | ch :: rest =>
    if extract_content ch = "" then stream_outputs buf rest
    else (buf ++ sanitize_output (extract_content ch))
         :: stream_outputs (buf ++ sanitize_output (extract_content ch)) rest

/-- The final response promoted to a turn:
`full_response = sanitize_output(full_response).strip()` after the loop. -/
def final_response (chunks : List Chunk) : String :=
  pyStrip (sanitize_output (run_stream "" chunks))

/-- The outcome of the `ollama.chat` call: `none` when the call (or the
iteration of its lazy stream) raises, `some chunks` when the stream completes
having yielded `chunks`. -/
def StreamOutcome : Type := Option (List Chunk)

/-- The chat handler's effect on the turn log `st.session_state.messages`:
the user turn is appended before the call; on success a non-empty final
response is appended as an assistant turn; an empty final response or a
raised exception appends nothing further. -/
def chat_update (messages : List Turn) (prompt : String)
    (outcome : Option (List Chunk)) : List Turn :=
  let messages1 := messages ++ [Turn.mk "user" prompt]
  match outcome with
  | none => messages1
  | some chunks =>
    if final_response chunks = "" then messages1
    else messages1 ++ [Turn.mk "assistant" (final_response chunks)]

/-- The context window the handler sends: the trimmer runs on
`st.session_state.messages[:-1]`, the log just before the freshly appended
user turn. -/
def chat_context (messages : List Turn) (lang level prompt : String) : List Turn :=
  let messages1 := messages ++ [Turn.mk "user" prompt]
  context_messages lang level
    (get_trimmed_history messages1.dropLast MAX_HISTORY) prompt

/-- The per-session mutable state together with the sidebar configuration:
`messages` and `model` live in `st.session_state`; language, level and
temperature are the widget values the handler reads. -/
structure AppState where
  messages : List Turn
  model : String
  selected_lang : String
  level : String
  temperature : ℚ

/-- The clear-button handler: `st.session_state.messages = []`. -/
def clear_chat (s : AppState) : AppState :=
  { s with messages := [] }

/-- The fragment stream of Scenario B. -/
def scenario_chunks : List Chunk :=
  [Chunk.dict (some "Hel"), Chunk.dict (some "lo"),
   Chunk.dict (some " <|fim_prefix|>world")]

/-! ## Helper lemmas -/

theorem pySliceLast_suffix (l : List Turn) (n : Nat) : pySliceLast l n <:+ l := by
  unfold pySliceLast
  split
  · exact List.suffix_refl l
  · exact List.drop_suffix _ l

theorem get_trimmed_history_suffix (messages : List Turn) (k : Nat) :
    get_trimmed_history messages k <:+ messages.filter is_chat_role :=
  pySliceLast_suffix _ _

theorem get_trimmed_history_sublist (messages : List Turn) (k : Nat) :
    List.Sublist (get_trimmed_history messages k) messages :=
  ((get_trimmed_history_suffix messages k).sublist).trans (List.filter_sublist messages)

theorem stripCore_of_not_hasInfix (pat : List Char) :
    ∀ (s : List Char) (fuel : Nat), hasInfix pat s = false → s.length ≤ fuel →
      stripCore fuel pat s = s := by
  intro s
  induction s with
  | nil =>
    intro fuel _ _
    cases fuel <;> rfl
  | cons c rest ih =>
    intro fuel h hf
    match fuel, hf with
    | fuel + 1, hf =>
      simp only [hasInfix, Bool.or_eq_false_iff] at h
      obtain ⟨h1, h2⟩ := h
      simp only [stripCore, h1, Bool.false_and, Bool.false_eq_true, if_false,
        List.cons.injEq, true_and]
      exact ih fuel h2 (by simpa using Nat.le_of_succ_le_succ hf)

theorem pyRemove_of_not_hasInfix (s pat : String)
    (h : hasInfix pat.data s.data = false) : pyRemove s pat = s := by
  unfold pyRemove
  rw [stripCore_of_not_hasInfix pat.data s.data s.data.length h (le_refl _)]

theorem foldl_pyRemove_of_clean (toks : List String) :
    ∀ s : String, (∀ tok ∈ toks, hasInfix tok.data s.data = false) →
      toks.foldl pyRemove s = s := by
  induction toks with
  | nil => intro s _; rfl
  | cons t ts ih =>
    intro s h
    rw [List.foldl_cons, pyRemove_of_not_hasInfix s t (h t (by simp))]
    exact ih s fun tok hm => h tok (by simp [hm])

/-! ## C1: history trimming bound and suffix property -/

/-- C1 counterexample: at bound `k = 0` on a one-turn log, the Python slice
`chat_messages[-0:]` returns the whole filtered log, so the result has length
1, violating the claimed bound `2 * k = 0`. -/
theorem get_trimmed_history_zero_bound_violates :
    ¬ ((get_trimmed_history [Turn.mk "user" "hi"] 0).length ≤ 2 * 0) := by decide

/-- C1 (amended): for every list of turns and every bound `k ≥ 1`,
`get_trimmed_history` returns at most `2 * k` turns, and the result is a
suffix of the input restricted to user/assistant roles (system turns
excluded, original order preserved).  At `k = 0` the slice `[-0:]` instead
returns the whole filtered log. -/
theorem get_trimmed_history_bounded_suffix (messages : List Turn) (k : Nat)
    (hk : 1 ≤ k) :
    (get_trimmed_history messages k).length ≤ 2 * k ∧
    get_trimmed_history messages k <:+ messages.filter is_chat_role := by
  refine ⟨?_, get_trimmed_history_suffix messages k⟩
  simp only [get_trimmed_history, pySliceLast]
  rw [if_neg (by omega : ¬ k * 2 = 0), List.length_drop]
  omega

theorem get_trimmed_history_bounded_suffix_witness :
    1 ≤ 1 ∧
    ((get_trimmed_history
        [Turn.mk "user" "a", Turn.mk "assistant" "b", Turn.mk "user" "c"] 1).length ≤ 2 * 1 ∧
      get_trimmed_history
        [Turn.mk "user" "a", Turn.mk "assistant" "b", Turn.mk "user" "c"] 1 <:+
        List.filter is_chat_role
          [Turn.mk "user" "a", Turn.mk "assistant" "b", Turn.mk "user" "c"]) :=
  ⟨by decide, get_trimmed_history_bounded_suffix _ 1 (by decide)⟩

/-! ## C2: sanitizer idempotence -/

/-- C2 counterexample: `sanitize_output` is not idempotent.  Deleting the
inner occurrence of `"<|fim_prefix|>"` from `"<|fim_<|fim_prefix|>prefix|>"`
splices the surrounding characters into a fresh occurrence of the same token,
so one pass yields `"<|fim_prefix|>"` and a second pass yields `""`. -/
theorem sanitize_output_not_idempotent :
    sanitize_output (sanitize_output "<|fim_<|fim_prefix|>prefix|>") ≠
      sanitize_output "<|fim_<|fim_prefix|>prefix|>" := by decide

/-- C2 (amended): `sanitize_output` is idempotent on every string whose
sanitized form contains no occurrence of any `BAD_TOKENS` entry; in
particular re-applying it to such already-sanitized text changes nothing.
(In general a removal can splice together a new token occurrence, so full
idempotence fails.) -/
theorem sanitize_output_idempotent_on_clean (x : String)
    (h : ∀ tok ∈ BAD_TOKENS, hasInfix tok.data (sanitize_output x).data = false) :
    sanitize_output (sanitize_output x) = sanitize_output x :=
  foldl_pyRemove_of_clean BAD_TOKENS (sanitize_output x) h

theorem sanitize_output_idempotent_on_clean_witness :
    (∀ tok ∈ BAD_TOKENS,
      hasInfix tok.data (sanitize_output "Hello <|fim_middle|>world").data = false) ∧
    sanitize_output (sanitize_output "Hello <|fim_middle|>world") =
      sanitize_output "Hello <|fim_middle|>world" :=
  ⟨by decide, sanitize_output_idempotent_on_clean _ (by decide)⟩

/-! ## C3: atomic turn-log update -/

theorem run_stream_cons (buf : String) (ch : Chunk) (l : List Chunk) :
    run_stream buf (ch :: l) = run_stream (stream_step buf ch) l := rfl

/-- C3: the turn log is never left partially updated.  The log with the
user's submitted turn appended is always a prefix of the final log; when the
service call raises, or the stream completes with a buffer that is empty
after sanitizing and stripping, nothing further is appended; when the final
buffer is non-empty, exactly one assistant turn carrying it is appended. -/
theorem chat_update_atomic (messages : List Turn) (prompt : String)
    (outcome : Option (List Chunk)) :
    (messages ++ [Turn.mk "user" prompt]) <+: chat_update messages prompt outcome ∧
    (outcome = none →
      chat_update messages prompt outcome = messages ++ [Turn.mk "user" prompt]) ∧
    (∀ chunks, outcome = some chunks → final_response chunks = "" →
      chat_update messages prompt outcome = messages ++ [Turn.mk "user" prompt]) ∧
    (∀ chunks, outcome = some chunks → final_response chunks ≠ "" →
      chat_update messages prompt outcome =
        (messages ++ [Turn.mk "user" prompt])
          ++ [Turn.mk "assistant" (final_response chunks)]) := by
  refine ⟨?_, ?_, ?_, ?_⟩
  · cases outcome with
    | none => exact List.prefix_refl _
    | some chunks =>
      simp only [chat_update]
      split
      · exact List.prefix_refl _
      · exact List.prefix_append _ _
  · rintro rfl
    rfl
  · rintro chunks rfl hempty
    simp [chat_update, hempty]
  · rintro chunks rfl hne
    simp [chat_update, hne]

theorem chat_update_atomic_witness :
    chat_update [] "hi" none = [] ++ [Turn.mk "user" "hi"] :=
  (chat_update_atomic [] "hi" none).2.1 rfl

/-! ## C4: no duplication of the new user turn in the context window -/

/-- C4: the context window assembled for a fresh user submission is the
system turn, then the trim of the log as it was before the submission (the
handler trims `messages[:-1]`, excluding the just-appended user turn), then
the new user turn; the new user turn is its final element and occurs in it
exactly once. -/
theorem chat_context_no_duplication (messages : List Turn)
    (lang level prompt : String) (h : Turn.mk "user" prompt ∉ messages) :
    chat_context messages lang level prompt =
      Turn.mk "system" (build_system_prompt lang level)
        :: (get_trimmed_history messages MAX_HISTORY ++ [Turn.mk "user" prompt]) ∧
    (chat_context messages lang level prompt).getLast? =
      some (Turn.mk "user" prompt) ∧
    List.count (Turn.mk "user" prompt) (chat_context messages lang level prompt)
      = 1 := by
  have hctx : chat_context messages lang level prompt =
      Turn.mk "system" (build_system_prompt lang level)
        :: (get_trimmed_history messages MAX_HISTORY ++ [Turn.mk "user" prompt]) := by
    simp [chat_context, context_messages, List.dropLast_concat]
  refine ⟨hctx, ?_, ?_⟩
  · rw [hctx]
    rw [show Turn.mk "system" (build_system_prompt lang level)
          :: (get_trimmed_history messages MAX_HISTORY ++ [Turn.mk "user" prompt])
        = (Turn.mk "system" (build_system_prompt lang level)
            :: get_trimmed_history messages MAX_HISTORY) ++ [Turn.mk "user" prompt]
      from by simp]
    exact List.getLast?_concat _
  · have hnotmem : Turn.mk "user" prompt ∉ get_trimmed_history messages MAX_HISTORY :=
      fun hm => h ((get_trimmed_history_sublist messages MAX_HISTORY).subset hm)
    rw [hctx]
    simp [List.count_cons, List.count_append, List.count_eq_zero.mpr hnotmem]

theorem chat_context_no_duplication_witness :
    (Turn.mk "user" "b" ∉ [Turn.mk "user" "a", Turn.mk "assistant" "x"]) ∧
    (chat_context [Turn.mk "user" "a", Turn.mk "assistant" "x"] "Python" "Beginner" "b" =
      Turn.mk "system" (build_system_prompt "Python" "Beginner")
        :: (get_trimmed_history [Turn.mk "user" "a", Turn.mk "assistant" "x"] MAX_HISTORY
            ++ [Turn.mk "user" "b"]) ∧
      (chat_context [Turn.mk "user" "a", Turn.mk "assistant" "x"] "Python" "Beginner" "b").getLast? =
        some (Turn.mk "user" "b") ∧
      List.count (Turn.mk "user" "b")
        (chat_context [Turn.mk "user" "a", Turn.mk "assistant" "x"] "Python" "Beginner" "b") = 1) :=
  ⟨by decide, chat_context_no_duplication _ "Python" "Beginner" "b" (by decide)⟩

/-! ## C5: Scenario B, concrete streaming run -/

/-- C5: on the fragment stream `["Hel", "lo", " <|fim_prefix|>world"]` the
successive display buffers (before the cursor marker) are `"Hel"`,
`"Hello"`, `"Hello world"`, and on completion exactly one assistant turn
with content `"Hello world"` is appended to the turn log (after the user's
own turn). -/
theorem scenario_b_stream :
    stream_outputs "" scenario_chunks = ["Hel", "Hello", "Hello world"] ∧
    ∀ (messages : List Turn) (prompt : String),
      chat_update messages prompt (some scenario_chunks) =
        messages ++ [Turn.mk "user" prompt, Turn.mk "assistant" "Hello world"] := by
  refine ⟨by decide, ?_⟩
  intro messages prompt
  have h : final_response scenario_chunks = "Hello world" := by decide
  simp [chat_update, h]

/-! ## C8: a bad fragment is skipped, never fatal -/

/-- C8: a fragment whose text extraction fails (wrong shape, or a raising
access swallowed by the per-fragment handler) contributes nothing: deleting
it from the stream changes neither the final response buffer nor the
sequence of display updates, and the fragments after it are still
consumed. -/
theorem bad_chunk_skipped (buf : String) (xs ys : List Chunk) :
    run_stream buf (xs ++ Chunk.bad :: ys) = run_stream buf (xs ++ ys) ∧
    stream_outputs buf (xs ++ Chunk.bad :: ys) = stream_outputs buf (xs ++ ys) := by
  induction xs generalizing buf with
  | nil =>
    refine ⟨?_, ?_⟩
    · rw [List.nil_append, List.nil_append, run_stream_cons]
      rfl
    · rw [List.nil_append, List.nil_append]
      simp [stream_outputs, extract_content]
  | cons x xs ih =>
    refine ⟨?_, ?_⟩
    · rw [List.cons_append, List.cons_append, run_stream_cons, run_stream_cons]
      exact (ih (stream_step buf x)).1
    · rw [List.cons_append, List.cons_append]
      by_cases hx : extract_content x = ""
      · simpa [stream_outputs, hx] using (ih buf).2
      · simp [stream_outputs, hx,
          (ih (buf ++ sanitize_output (extract_content x))).2]

/-! ## C9: clearing the chat is a pure turn-log reset -/

/-- C9: the clear-chat handler empties the turn log and leaves every
session-configuration field — active model, selected language, skill level,
temperature — unchanged. -/
theorem clear_chat_frame (s : AppState) :
    (clear_chat s).messages = [] ∧
    (clear_chat s).model = s.model ∧
    (clear_chat s).selected_lang = s.selected_lang ∧
    (clear_chat s).level = s.level ∧
    (clear_chat s).temperature = s.temperature :=
  ⟨rfl, rfl, rfl, rfl, rfl⟩

/-! ## C6: shape of the assembled context window -/

/-- C6: the assembled message list is, in order, one system turn built by
`build_system_prompt`, then the trimmed history unchanged, then one final
user turn wrapping the new user text; its length is the history length plus
two, and with empty history it is exactly `[system, user]`. -/
theorem context_messages_shape (lang level : String) (hist : List Turn)
    (prompt : String) :
    (context_messages lang level hist prompt).head? =
      some (Turn.mk "system" (build_system_prompt lang level)) ∧
    (context_messages lang level hist prompt).drop 1 =
      hist ++ [Turn.mk "user" prompt] ∧
    ((context_messages lang level hist prompt).drop 1).dropLast = hist ∧
    (context_messages lang level hist prompt).getLast? =
      some (Turn.mk "user" prompt) ∧
    (context_messages lang level hist prompt).length = hist.length + 2 ∧
    (hist = [] → context_messages lang level hist prompt =
      [Turn.mk "system" (build_system_prompt lang level),
       Turn.mk "user" prompt]) := by
  refine ⟨?_, ?_, ?_, ?_, ?_, ?_⟩
  · simp [context_messages]
  · simp [context_messages]
  · simp [context_messages, List.dropLast_concat]
  · rw [show context_messages lang level hist prompt =
        (Turn.mk "system" (build_system_prompt lang level) :: hist)
          ++ [Turn.mk "user" prompt] from by simp [context_messages]]
    exact List.getLast?_concat _
  · simp [context_messages]
  · rintro rfl
    rfl

theorem context_messages_shape_witness :
    (context_messages "Python" "Beginner" [] "hi").head? =
      some (Turn.mk "system" (build_system_prompt "Python" "Beginner")) ∧
    (context_messages "Python" "Beginner" [] "hi").drop 1 =
      [] ++ [Turn.mk "user" "hi"] ∧
    ((context_messages "Python" "Beginner" [] "hi").drop 1).dropLast = [] ∧
    (context_messages "Python" "Beginner" [] "hi").getLast? =
      some (Turn.mk "user" "hi") ∧
    (context_messages "Python" "Beginner" [] "hi").length =
      List.length ([] : List Turn) + 2 ∧
    (([] : List Turn) = [] → context_messages "Python" "Beginner" [] "hi" =
      [Turn.mk "system" (build_system_prompt "Python" "Beginner"),
       Turn.mk "user" "hi"]) :=
  context_messages_shape "Python" "Beginner" [] "hi"

/-! ## C7: the system prompt names the language and level -/

/-- C7: for every valid (language, level) pair of the two enumerations,
`build_system_prompt` returns a non-empty string containing the language
name and the level name verbatim (as contiguous substrings). -/
theorem build_system_prompt_mentions (language level : String)
    (_hl : language ∈ LANGUAGES) (_hv : level ∈ LEVELS) :
    build_system_prompt language level ≠ "" ∧
    language.data <:+: (build_system_prompt language level).data ∧
    level.data <:+: (build_system_prompt language level).data := by
  refine ⟨?_, ?_, ?_⟩
  · intro h
    have hlen : (build_system_prompt language level).length = 0 := by
      rw [h]; rfl
    have hhead : 0 < bsp_head.length := by decide
    simp only [build_system_prompt, String.length_append] at hlen
    omega
  · refine ⟨bsp_head.data, (bsp_mid ++ level ++ bsp_tail).data, ?_⟩
    simp [build_system_prompt, String.data_append]
  · refine ⟨(bsp_head ++ language ++ bsp_mid).data, bsp_tail.data, ?_⟩
    simp [build_system_prompt, String.data_append]

theorem build_system_prompt_mentions_witness :
    "Python" ∈ LANGUAGES ∧ "Beginner" ∈ LEVELS ∧
    (build_system_prompt "Python" "Beginner" ≠ "" ∧
      "Python".data <:+: (build_system_prompt "Python" "Beginner").data ∧
      "Beginner".data <:+: (build_system_prompt "Python" "Beginner").data) :=
  ⟨by decide, by decide,
    build_system_prompt_mentions "Python" "Beginner" (by decide) (by decide)⟩

/-! ## C10: monotone growth of the response buffer -/

theorem stream_outputs_mem_prefix (chunks : List Chunk) :
    ∀ (buf : String) (b : String), b ∈ stream_outputs buf chunks →
      buf.data <+: b.data := by
  induction chunks with
  | nil =>
    intro buf b hb
    simp [stream_outputs] at hb
  | cons ch rest ih =>
    intro buf b hb
    by_cases hx : extract_content ch = ""
    · exact ih buf b (by simpa [stream_outputs, hx] using hb)
    · have hpre : buf.data <+:
          (buf ++ sanitize_output (extract_content ch)).data := by
        rw [String.data_append]
        exact List.prefix_append _ _
      simp only [stream_outputs] at hb
      rw [if_neg hx] at hb
      cases hb with
      | head => exact hpre
      | tail _ hb2 => exact hpre.trans (ih _ b hb2)

/-- C10: during streaming the response buffer grows monotonically: each
fragment with non-empty extracted text extends the buffer by exactly the
sanitized fragment text, so the successive buffers pushed to the display
(before the cursor marker) form a chain in which every earlier buffer is a
prefix of every later one. -/
theorem stream_buffer_monotone (buf : String) (chunks : List Chunk) :
    List.Pairwise (fun a b => a.data <+: b.data) (stream_outputs buf chunks) ∧
    ∀ ch : Chunk, extract_content ch ≠ "" →
      run_stream buf (chunks ++ [ch]) =
        run_stream buf chunks ++ sanitize_output (extract_content ch) := by
  constructor
  · induction chunks generalizing buf with
    | nil => simp [stream_outputs]
    | cons ch rest ih =>
      by_cases hx : extract_content ch = ""
      · simpa [stream_outputs, hx] using ih buf
      · simp only [stream_outputs, hx, if_neg]
        exact List.Pairwise.cons
          (fun b hb => stream_outputs_mem_prefix rest _ b hb) (ih _)
  · intro ch hch
    rw [run_stream, List.foldl_append]
    simp [run_stream, stream_step, hch]

theorem stream_buffer_monotone_witness :
    extract_content (Chunk.dict (some "x")) ≠ "" ∧
    run_stream "" ([Chunk.dict (some "a")] ++ [Chunk.dict (some "x")]) =
      run_stream "" [Chunk.dict (some "a")]
        ++ sanitize_output (extract_content (Chunk.dict (some "x"))) :=
  ⟨by decide,
    (stream_buffer_monotone "" [Chunk.dict (some "a")]).2
      (Chunk.dict (some "x")) (by decide)⟩
